import Mathlib

/-!
Shallow embedding of the two widgets of this repository
(`crates/ui/src/breadcrumb.rs` and `crates/ui/src/rating.rs`),
restricted to their algorithmic core: the breadcrumb truncation engine,
the separator/ellipsis composition, item interactivity, and the rating
value model, fill classification and click handling.

Rust `f32` values are modelled as `ℚ`: every constant the code compares
against (`0`, `0.5`, integer positions, clamp bounds) is exactly
representable in `f32`, and the operations used (`clamp`, `ceil`,
comparisons) agree with their rational counterparts on these values.
Styling-only fields (colors, sizes, icons) are omitted; booleans that
gate behaviour are kept.
-/

namespace GpuiComponent

/-- One entry of a breadcrumb trail (`BreadcrumbItem` in `breadcrumb.rs`).
`has_on_click` models whether the optional `on_click: Option<Rc<dyn Fn ...>>`
callback is present; `is_last` is the internal field set by
`Breadcrumb::render` via `BreadcrumbItem::is_last`. -/
structure BreadcrumbItem (α : Type) where
  label : α
  disabled : Bool := false
  has_on_click : Bool := false
  is_last : Bool := false
deriving DecidableEq, Repr

/-- The breadcrumb trail (`Breadcrumb` in `breadcrumb.rs`), keeping the
behaviour-relevant fields: the items, the trail-level `disabled` flag and
the optional `max_items` cap. -/
structure Breadcrumb (α : Type) where
  items : List (BreadcrumbItem α)
  disabled : Bool := false
  max_items : Option Nat := none

/-- `Breadcrumb::get_display_items`, translated from the source.
The Rust returns `(Vec<&BreadcrumbItem>, bool)`; here `(List _, Bool)`.
In the ellipsis branch the source pushes `&self.items[0]` (well defined
because `items.len() > max ≥ 3` forces the list nonempty), modelled as
`items.take 1`; `saturating_sub` is `Nat` subtraction. -/
def Breadcrumb.get_display_items (b : Breadcrumb α) : List (BreadcrumbItem α) × Bool :=
  match b.max_items with
  | some mx =>
      if b.items.length > mx ∧ mx ≥ 3 then
        (b.items.take 1 ++ b.items.drop (b.items.length - (mx - 2)), true)
      else
        (b.items.drop (b.items.length - mx), false)
  | none => (b.items, false)

/-- The visible result of `BreadcrumbItem::render`: whether the item got
the `is_last` emphasis, the hover affordance (`hover(...)`, attached iff
`!disabled && !is_last`) and the click handler (`on_click(...)`, attached
iff additionally the callback is present). -/
structure RenderedItem (α : Type) where
  label : α
  is_last : Bool
  hover_affordance : Bool
  click_handler : Bool
deriving DecidableEq, Repr

/-- `BreadcrumbItem::render` (the interactivity-relevant part): the
`when(!self.disabled && !self.is_last, ...)` block attaches the hover
highlight, and inside it `when_some(self.on_click, ...)` attaches the
click handler. -/
def BreadcrumbItem.render (it : BreadcrumbItem α) : RenderedItem α :=
  { label := it.label
    is_last := it.is_last
    hover_affordance := !it.disabled && !it.is_last
    click_handler := (!it.disabled && !it.is_last) && it.has_on_click }

/-- A node of the flat child sequence built by `Breadcrumb::render`:
a separator element, the `"..."` ellipsis marker, or a rendered item. -/
inductive Node (α : Type) where
  | sep
  | ellipsis
  | item (ri : RenderedItem α)
deriving DecidableEq, Repr

/-- The nodes one loop iteration of `Breadcrumb::render` pushes for the
item at position `ix` of `count` display items: the ellipsis prefix when
`show_ellipsis && ix == 1`, the separator when `ix > 0` and not in the
ellipsis case, then the item rendered with `is_last = (ix == count - 1)`. -/
def nodeGroup (show_ellipsis : Bool) (count ix : Nat) (it : BreadcrumbItem α) : List (Node α) :=
  (if show_ellipsis && ix == 1 then [Node.sep, Node.ellipsis] else [])
    ++ (if ix > 0 && !(show_ellipsis && ix == 1) then [Node.sep] else [])
    ++ [Node.item (BreadcrumbItem.render { it with is_last := ix == count - 1 })]

/-- The `for (ix, item) in display_items.into_iter().enumerate()` loop of
`Breadcrumb::render`, accumulating the node groups in order. -/
def renderNodesAux (show_ellipsis : Bool) (count : Nat) :
    Nat → List (BreadcrumbItem α) → List (Node α)
  | _, [] => []
  | ix, it :: rest =>
      nodeGroup show_ellipsis count ix it ++ renderNodesAux show_ellipsis count (ix + 1) rest

/-- The child node sequence `Breadcrumb::render` builds from the display
items and the ellipsis flag. -/
def renderNodes (display : List (BreadcrumbItem α)) (show_ellipsis : Bool) : List (Node α) :=
  renderNodesAux show_ellipsis display.length 0 display

/-- The outcome of `Breadcrumb::render`: the node sequence, and whether
the container was dimmed (`opacity(0.5).cursor_not_allowed()`), which is
the only effect of the trail-level `disabled` flag in the source. -/
structure RenderedBreadcrumb (α : Type) where
  nodes : List (Node α)
  container_dimmed : Bool
deriving DecidableEq, Repr

/-- `Breadcrumb::render`, translated from the source: truncate, compose
the node sequence, and dim the container when the trail is disabled.
Note that the source never copies the trail-level `disabled` flag into
the individual items. -/
def Breadcrumb.render (b : Breadcrumb α) : RenderedBreadcrumb α :=
  let di := b.get_display_items
  { nodes := renderNodes di.1 di.2
    container_dimmed := b.disabled }

/-- Reference truncation, written from the spec (§4.1/C1): `maxVisible`
unset returns `(items, false)`; `N > M ∧ M ≥ 3` returns
`([items[0]] ++ items[N-(M-2)..N), true)`; otherwise
`(items[max(0,N-M)..N), false)`. `[items[0]]` is `items.take 1` (the
guarded branch forces the list nonempty) and `max(0, N-M)` is `Nat`
subtraction. -/
def refTruncation (items : List (BreadcrumbItem α)) (maxVisible : Option Nat) :
    List (BreadcrumbItem α) × Bool :=
  match maxVisible with
  | none => (items, false)
  | some M =>
      if items.length > M ∧ M ≥ 3 then
        (items.take 1 ++ items.drop (items.length - (M - 2)), true)
      else
        (items.drop (items.length - M), false)

/-- Reference per-position composition, written from the spec (§4.2/C3):
position 0 emits the item alone; position 1 under `showEllipsis` emits
separator, ellipsis marker, then the item with no separator in between;
every other position `ix > 0` emits separator then item. -/
def refNodeGroup (showEllipsis : Bool) (count ix : Nat) (it : BreadcrumbItem α) :
    List (Node α) :=
  if ix = 0 then
    [Node.item (BreadcrumbItem.render { it with is_last := ix == count - 1 })]
  else if showEllipsis ∧ ix = 1 then
    [Node.sep, Node.ellipsis,
      Node.item (BreadcrumbItem.render { it with is_last := ix == count - 1 })]
  else
    [Node.sep, Node.item (BreadcrumbItem.render { it with is_last := ix == count - 1 })]

/-- The spec's composer: the reference groups, flattened in order. -/
def refCompose (display : List (BreadcrumbItem α)) (showEllipsis : Bool) : List (Node α) :=
  (display.enum.map (fun p => refNodeGroup showEllipsis display.length p.1 p.2)).flatten

/-- Rust's `f32::clamp(self, min, max)`: `if self < min { min } else if
self > max { max } else { self }`, on `ℚ`. -/
def clampQ (x lo hi : ℚ) : ℚ :=
  if x < lo then lo else if x > hi then hi else x

/-- The rating widget (`Rating` in `rating.rs`), keeping the
behaviour-relevant fields. `value : ℚ` models the `f32`; `max_rating : ℕ`
models the `u8` (the operations `max _ 1` and `clamp` never leave `u8`
range when the inputs are in range, so no wraparound arises);
`has_on_change` models presence of the `on_change` callback. -/
structure Rating where
  value : ℚ
  max_rating : ℕ
  readonly : Bool
  precision : Bool
  show_text : Bool
  disabled : Bool
  has_on_change : Bool
deriving DecidableEq, Repr

/-- `Rating::new`: value `0.0`, max rating `5`, all flags off, no
callback. -/
def Rating.new : Rating :=
  { value := 0, max_rating := 5, readonly := false, precision := false
    show_text := false, disabled := false, has_on_change := false }

/-- Builder `Rating::value` (named `setValue` because the Lean field
accessor `Rating.value` takes the method's name):
`self.value = value.clamp(0.0, self.max_rating as f32)`. -/
def Rating.setValue (r : Rating) (v : ℚ) : Rating :=
  { r with value := clampQ v 0 (r.max_rating : ℚ) }

/-- Builder `Rating::max_rating` (named `setMaxRating`, see
`Rating.setValue`): `self.max_rating = max.max(1)` then
`self.value = self.value.clamp(0.0, self.max_rating as f32)`. -/
def Rating.setMaxRating (r : Rating) (m : ℕ) : Rating :=
  let mr := max m 1
  { r with max_rating := mr, value := clampQ r.value 0 (mr : ℚ) }

/-- One builder call of the rating value model: `value(v)` or
`max_rating(m)`. -/
inductive RatingCall where
  | value (v : ℚ)
  | maxRating (m : ℕ)

/-- Apply one builder call. -/
def applyCall (r : Rating) : RatingCall → Rating
  | .value v => r.setValue v
  | .maxRating m => r.setMaxRating m

/-- Apply a sequence of builder calls in order. -/
def applyCalls (r : Rating) (cs : List RatingCall) : Rating :=
  cs.foldl applyCall r

/-- The `is_filled` classification computed per position `i` in
`Rating::render`: `self.value >= rating_value` with
`rating_value = i as f32`. -/
def Rating.is_filled (r : Rating) (i : ℕ) : Bool :=
  decide (r.value ≥ (i : ℚ))

/-- The `is_half_filled` classification computed per position `i` in
`Rating::render`: `self.precision && self.value >= rating_value - 0.5 &&
self.value < rating_value`. -/
def Rating.is_half_filled (r : Rating) (i : ℕ) : Bool :=
  r.precision && decide (r.value ≥ (i : ℚ) - 1/2) && decide (r.value < (i : ℚ))

/-- `Rating::handle_click` at `rating_value`, returning the value passed
to `on_change`, or `none` when nothing is emitted: the handler returns
early when `readonly || disabled`; otherwise the new value is
`rating_value` under `precision`, else `rating_value.ceil()`, and is
passed to the callback when one is present. -/
def Rating.handle_click_emits (r : Rating) (rating_value : ℚ) : Option ℚ :=
  if r.readonly || r.disabled then none
  else
    let new_value : ℚ := if r.precision then rating_value else (⌈rating_value⌉ : ℚ)
    if r.has_on_change then some new_value else none

/-! ### Helper lemmas -/

/-- Each per-position node group of the source loop equals the spec's
reference group. -/
lemma nodeGroup_eq_refNodeGroup (se : Bool) (count ix : Nat) (it : BreadcrumbItem α) :
    nodeGroup se count ix it = refNodeGroup se count ix it := by
  match ix, se with
  | 0, se => cases se <;> simp [nodeGroup, refNodeGroup]
  | 1, true => simp [nodeGroup, refNodeGroup]
  | 1, false => simp [nodeGroup, refNodeGroup]
  | (n + 2), se => cases se <;> simp [nodeGroup, refNodeGroup]

/-- The source render loop, started at index `ix`, equals the flattened
reference groups over the index-annotated suffix. -/
lemma renderNodesAux_eq_ref (se : Bool) (count : Nat) :
    ∀ (l : List (BreadcrumbItem α)) (ix : Nat),
      renderNodesAux se count ix l =
        ((List.enumFrom ix l).map (fun p => refNodeGroup se count p.1 p.2)).flatten := by
  intro l
  induction l with
  | nil => intro ix; simp [renderNodesAux]
  | cons it rest ih =>
      intro ix
      simp only [renderNodesAux, List.enumFrom, List.map_cons, List.flatten_cons,
        nodeGroup_eq_refNodeGroup, ih]

/-- A node group is never empty: it always ends with its item node. -/
lemma nodeGroup_ne_nil (se : Bool) (count ix : Nat) (it : BreadcrumbItem α) :
    nodeGroup se count ix it ≠ [] := by
  unfold nodeGroup
  split_ifs <;> simp

/-- The render loop output is nonempty on a nonempty display list. -/
lemma renderNodesAux_ne_nil (se : Bool) (count ix : Nat) (hd : BreadcrumbItem α)
    (rest : List (BreadcrumbItem α)) :
    renderNodesAux se count ix (hd :: rest) ≠ [] := by
  simp [renderNodesAux, nodeGroup_ne_nil]

/-- When the loop is started at an index aligned with `count` (as
`Breadcrumb::render` does, with `count` the display length), the final
node is the last display item rendered with `is_last = true`. -/
lemma renderNodesAux_getLast? (se : Bool) (count : Nat) :
    ∀ (l : List (BreadcrumbItem α)) (ix : Nat) (it : BreadcrumbItem α),
      l.getLast? = some it → ix + l.length = count →
      (renderNodesAux se count ix l).getLast? =
        some (Node.item (BreadcrumbItem.render { it with is_last := true })) := by
  intro l
  induction l with
  | nil => intro ix it h _; simp at h
  | cons hd rest ih =>
      intro ix it h hcount
      cases rest with
      | nil =>
          have hit : hd = it := by simpa using h
          subst hit
          have hb : (ix == count - 1) = true := by
            simp only [List.length_cons, List.length_nil] at hcount
            simp [Nat.beq_eq_true_eq]
            omega
          show (nodeGroup se count ix hd ++ renderNodesAux se count (ix + 1) []).getLast? = _
          simp only [renderNodesAux, List.append_nil, nodeGroup, hb]
          split_ifs <;> rfl
      | cons hd2 rest2 =>
          have hlast : (hd2 :: rest2).getLast? = some it := by
            simpa using h
          have hcount2 : (ix + 1) + (hd2 :: rest2).length = count := by
            simp only [List.length_cons] at hcount ⊢
            omega
          show (nodeGroup se count ix hd ++
            renderNodesAux se count (ix + 1) (hd2 :: rest2)).getLast? = _
          rw [List.getLast?_append_of_ne_nil _
            (renderNodesAux_ne_nil se count (ix + 1) hd2 rest2)]
          exact ih (ix + 1) it hlast hcount2

/-! ### C1: the truncation engine matches the reference definition -/

/-- C1: `Breadcrumb::get_display_items` equals the spec's reference
truncation on every input, and in the ellipsis branch (`N > M`, `M ≥ 3`)
the display list has length `M - 1`. -/
theorem truncation_engine_matches_reference (α : Type) :
    (∀ b : Breadcrumb α, b.get_display_items = refTruncation b.items b.max_items) ∧
    ∀ (b : Breadcrumb α) (M : Nat), b.max_items = some M → M ≥ 3 → b.items.length > M →
      b.get_display_items.1.length = M - 1 := by
  constructor
  · rintro ⟨items, d, mx⟩
    cases mx <;> rfl
  · intro b M hM h3 hN
    have hdi : b.get_display_items =
        (b.items.take 1 ++ b.items.drop (b.items.length - (M - 2)), true) := by
      unfold Breadcrumb.get_display_items
      rw [hM]
      exact if_pos ⟨hN, h3⟩
    rw [hdi]
    simp only [List.length_append, List.length_take, List.length_drop]
    omega

/-- Witness for C1 at a concrete input: four items, `max_items = 3`. -/
theorem truncation_engine_matches_reference_witness :
    (Breadcrumb.get_display_items
      (⟨[⟨0, false, false, false⟩, ⟨1, false, false, false⟩,
        ⟨2, false, false, false⟩, ⟨3, false, false, false⟩], false, some 3⟩ :
        Breadcrumb Nat)).1.length = 3 - 1 :=
  (truncation_engine_matches_reference Nat).2
    ⟨[⟨0, false, false, false⟩, ⟨1, false, false, false⟩,
      ⟨2, false, false, false⟩, ⟨3, false, false, false⟩], false, some 3⟩
    3 rfl (by decide) (by decide)

/-! ### C3: the separator composer matches the reference composition -/

/-- C3: the node sequence built by the `Breadcrumb::render` loop equals
the spec's per-position composition: position 0 emits the item alone;
position 1 under `showEllipsis` emits separator, ellipsis marker, then
the item with no separator between them; every other position `ix > 0`
emits separator then item. -/
theorem separator_composer_matches_reference (α : Type)
    (display : List (BreadcrumbItem α)) (se : Bool) :
    renderNodes display se = refCompose display se := by
  unfold renderNodes refCompose
  rw [renderNodesAux_eq_ref, List.enum_eq_enumFrom]

/-! ### C9: empty item sequences render to empty output -/

/-- C9: with no items, every `max_items` setting yields display items
`([], false)` and an empty node sequence; the loop body (and with it the
`items_count - 1` computation) never runs. -/
theorem empty_items_render_empty (α : Type) (mx : Option Nat) (d : Bool) :
    (Breadcrumb.get_display_items (⟨[], d, mx⟩ : Breadcrumb α)) = ([], false) ∧
    (Breadcrumb.render (⟨[], d, mx⟩ : Breadcrumb α)).nodes = [] := by
  cases mx <;>
    simp [Breadcrumb.get_display_items, Breadcrumb.render, renderNodes, renderNodesAux]

/-! ### C2: Scenario A -/

/-- The Scenario A items: `[Home, Documents, Projects, GPUI Component]`,
no item-level callbacks or disabling. -/
def scenarioAItems : List (BreadcrumbItem String) :=
  [⟨"Home", false, false, false⟩, ⟨"Documents", false, false, false⟩,
   ⟨"Projects", false, false, false⟩, ⟨"GPUI Component", false, false, false⟩]

/-- The Scenario A breadcrumb: the four items with `max_items = 3`. -/
def scenarioA : Breadcrumb String :=
  ⟨scenarioAItems, false, some 3⟩

/-- C2 counterexample: with `maxVisible = 3` and four items, the display
items are NOT `[Home, Projects, GPUI Component]` — the ellipsis branch
keeps the first item plus only the trailing `M - 2 = 1` item, so
`Projects` is elided. -/
theorem scenario_a_counterexample :
    scenarioA.get_display_items.1.map BreadcrumbItem.label ≠
      ["Home", "Projects", "GPUI Component"] := by
  decide

/-- C2 amended: the display items are `[Home, GPUI Component]` with the
ellipsis flag set, and the composed node sequence is the Home item, a
separator, the ellipsis marker, then the GPUI Component item — the
ellipsis marker sits between the two items and no separator directly
precedes the trailing item. -/
theorem scenario_a_amended :
    scenarioA.get_display_items.1.map BreadcrumbItem.label = ["Home", "GPUI Component"] ∧
    scenarioA.get_display_items.2 = true ∧
    scenarioA.render.nodes =
      [Node.item ⟨"Home", false, true, false⟩, Node.sep, Node.ellipsis,
       Node.item ⟨"GPUI Component", true, false, false⟩] := by
  decide

/-! ### C7: trail-level disabled and item interactivity -/

/-- A trail with `disabled = true` whose first item carries a callback
and is not item-level disabled. -/
def trailDisabledExample : Breadcrumb String :=
  ⟨[⟨"Home", false, true, false⟩, ⟨"Documents", false, true, false⟩], true, none⟩

/-- C7 (evaluating the code at the failing input): `Breadcrumb::render`
never copies the trail-level `disabled` flag into the items — it only
dims the container — so with trail `disabled = true` the first item is
still rendered with the hover affordance and an attached click handler. -/
theorem trail_disabled_click_still_attached :
    trailDisabledExample.disabled = true ∧
    trailDisabledExample.render.container_dimmed = true ∧
    trailDisabledExample.render.nodes.head? =
      some (Node.item ⟨"Home", false, true, true⟩) := by
  decide

/-! ### C8: the last displayed item is inert -/

/-- C8: whenever the display list has a last item, the final rendered
node is that item rendered with `is_last = true`, which carries neither
the hover affordance nor a click handler — regardless of its
`on_click`/`disabled` configuration. -/
theorem last_item_inert (α : Type) (b : Breadcrumb α) (it : BreadcrumbItem α)
    (h : b.get_display_items.1.getLast? = some it) :
    b.render.nodes.getLast? =
      some (Node.item (BreadcrumbItem.render { it with is_last := true })) ∧
    (BreadcrumbItem.render { it with is_last := true }).hover_affordance = false ∧
    (BreadcrumbItem.render { it with is_last := true }).click_handler = false := by
  refine ⟨?_, ?_, ?_⟩
  · show (renderNodes b.get_display_items.1 b.get_display_items.2).getLast? = _
    unfold renderNodes
    exact renderNodesAux_getLast? b.get_display_items.2 b.get_display_items.1.length
      b.get_display_items.1 0 it h (Nat.zero_add _)
  · simp [BreadcrumbItem.render]
  · simp [BreadcrumbItem.render]

/-- A concrete breadcrumb whose last item carries a callback. -/
def lastItemWitnessB : Breadcrumb Nat :=
  ⟨[⟨0, false, true, false⟩, ⟨1, false, true, false⟩], false, none⟩

/-- Witness for C8: the last item of `lastItemWitnessB` has an
`on_click` callback, yet renders without hover or click affordance. -/
theorem last_item_inert_witness :
    lastItemWitnessB.render.nodes.getLast? =
      some (Node.item (BreadcrumbItem.render
        { label := 1, disabled := false, has_on_click := true, is_last := true })) ∧
    (BreadcrumbItem.render
      { label := (1 : Nat), disabled := false, has_on_click := true,
        is_last := true }).hover_affordance = false ∧
    (BreadcrumbItem.render
      { label := (1 : Nat), disabled := false, has_on_click := true,
        is_last := true }).click_handler = false :=
  last_item_inert Nat lastItemWitnessB ⟨1, false, true, false⟩ rfl

/-! ### C4: the rating builder invariant -/

/-- The invariant the spec states for the rating value model. -/
def ratingInvariant (r : Rating) : Prop :=
  0 ≤ r.value ∧ r.value ≤ (r.max_rating : ℚ) ∧ 1 ≤ r.max_rating

/-- Clamping lands in the interval when the bounds are ordered. -/
lemma clampQ_mem (x lo hi : ℚ) (h : lo ≤ hi) :
    lo ≤ clampQ x lo hi ∧ clampQ x lo hi ≤ hi := by
  unfold clampQ
  split_ifs <;> constructor <;> linarith

/-- One builder call preserves the invariant. -/
lemma applyCall_invariant (r : Rating) (c : RatingCall) (h : ratingInvariant r) :
    ratingInvariant (applyCall r c) := by
  cases c with
  | value v =>
      have hmem := clampQ_mem v 0 (r.max_rating : ℚ) (by positivity)
      exact ⟨hmem.1, hmem.2, h.2.2⟩
  | maxRating m =>
      have hmem := clampQ_mem r.value 0 ((max m 1 : ℕ) : ℚ) (by positivity)
      exact ⟨hmem.1, hmem.2, Nat.le_max_right m 1⟩

/-- Any builder call sequence starting from an invariant state stays in
the invariant. -/
lemma applyCalls_invariant (cs : List RatingCall) :
    ∀ r : Rating, ratingInvariant r → ratingInvariant (applyCalls r cs) := by
  induction cs with
  | nil => intro r h; exact h
  | cons c rest ih =>
      intro r h
      exact ih (applyCall r c) (applyCall_invariant r c h)

/-- C4: after any sequence of `value(v)`/`max_rating(m)` builder calls
starting from `Rating::new`, the state satisfies
`0 ≤ value ≤ max_rating` and `max_rating ≥ 1`; in particular
`max_rating(0)` floors the scale to `1`, and a subsequent `value(7)`
stores `1`. -/
theorem rating_builder_invariant :
    (∀ cs : List RatingCall,
      0 ≤ (applyCalls Rating.new cs).value ∧
      (applyCalls Rating.new cs).value ≤ ((applyCalls Rating.new cs).max_rating : ℚ) ∧
      1 ≤ (applyCalls Rating.new cs).max_rating) ∧
    (Rating.new.setMaxRating 0).max_rating = 1 ∧
    ((Rating.new.setMaxRating 0).setValue 7).value = 1 := by
  refine ⟨fun cs => applyCalls_invariant cs Rating.new ?_, by decide, by decide⟩
  unfold ratingInvariant Rating.new
  norm_num

/-! ### C5: fill classification -/

/-- C5: for a position `i` in `[1, maxScale]`, the position is filled
exactly when `value ≥ i`, half-filled exactly when `precision` holds and
`i - 0.5 ≤ value < i`, and never both. -/
theorem rating_fill_classification (r : Rating) (i : ℕ) (h1 : 1 ≤ i)
    (h2 : i ≤ r.max_rating) :
    (r.is_filled i = true ↔ (i : ℚ) ≤ r.value) ∧
    (r.is_half_filled i = true ↔
      (r.precision = true ∧ (i : ℚ) - 1/2 ≤ r.value ∧ r.value < (i : ℚ))) ∧
    ¬(r.is_filled i = true ∧ r.is_half_filled i = true) := by
  refine ⟨?_, ?_, ?_⟩
  · simp [Rating.is_filled, ge_iff_le]
  · simp only [Rating.is_half_filled, Bool.and_eq_true, decide_eq_true_eq, ge_iff_le,
      sub_le_iff_le_add, and_assoc]
  · rintro ⟨hf, hh⟩
    simp only [Rating.is_filled, decide_eq_true_eq, ge_iff_le] at hf
    simp only [Rating.is_half_filled, Bool.and_eq_true, decide_eq_true_eq] at hh
    exact absurd hf (not_le.mpr hh.2)

/-- Scenario B's fourth position: value `3.5`, precision on, scale 5. -/
def ratingHalfExample : Rating :=
  { value := 7/2, max_rating := 5, readonly := false, precision := true,
    show_text := false, disabled := false, has_on_change := false }

/-- Witness for C5 at value `3.5`, precision on, position 4. -/
theorem rating_fill_classification_witness :
    (ratingHalfExample.is_filled 4 = true ↔ ((4 : ℕ) : ℚ) ≤ ratingHalfExample.value) ∧
    (ratingHalfExample.is_half_filled 4 = true ↔
      (ratingHalfExample.precision = true ∧
        ((4 : ℕ) : ℚ) - 1/2 ≤ ratingHalfExample.value ∧
        ratingHalfExample.value < ((4 : ℕ) : ℚ))) ∧
    ¬(ratingHalfExample.is_filled 4 = true ∧ ratingHalfExample.is_half_filled 4 = true) :=
  rating_fill_classification ratingHalfExample 4 (by decide) (by decide)

/-! ### C6: click determinism -/

/-- C6: for an interactive rating (`readonly = false`, `disabled =
false`) with a callback, activating the integer position `i ∈ [1,
maxScale]` emits exactly `i` to `on_change`, and the emitted value does
not depend on the `precision` flag. -/
theorem rating_click_determinism (r : Rating) (i : ℕ)
    (hro : r.readonly = false) (hd : r.disabled = false) (hc : r.has_on_change = true)
    (h1 : 1 ≤ i) (h2 : i ≤ r.max_rating) :
    r.handle_click_emits (i : ℚ) = some (i : ℚ) ∧
    Rating.handle_click_emits { r with precision := true } (i : ℚ) =
      Rating.handle_click_emits { r with precision := false } (i : ℚ) := by
  unfold Rating.handle_click_emits
  simp only [hro, hd, hc, Bool.or_self, Bool.false_eq_true, if_false, if_true]
  constructor
  · cases hp : r.precision <;> simp [Int.ceil_natCast]
  · simp [Int.ceil_natCast]

/-- An interactive rating with a callback, value `3.5`, precision off
(Scenario C's configuration). -/
def ratingClickExample : Rating :=
  { value := 7/2, max_rating := 5, readonly := false, precision := false,
    show_text := false, disabled := false, has_on_change := true }

/-- Witness for C6: clicking position 4 of `ratingClickExample` emits
`4`, and toggling `precision` leaves the emitted value unchanged. -/
theorem rating_click_determinism_witness :
    ratingClickExample.handle_click_emits ((4 : ℕ) : ℚ) = some ((4 : ℕ) : ℚ) ∧
    Rating.handle_click_emits { ratingClickExample with precision := true } ((4 : ℕ) : ℚ) =
      Rating.handle_click_emits { ratingClickExample with precision := false } ((4 : ℕ) : ℚ) :=
  rating_click_determinism ratingClickExample 4 rfl rfl rfl (by decide) (by decide)

/-! ### C10: the builder calls do not commute -/

/-- C10: from `Rating::new` (default scale 5), `.value(7).max_rating(10)`
ends with value `5` (the clamp used the old scale), while
`.max_rating(10).value(7)` ends with value `7`. -/
theorem rating_value_max_rating_noncommutative :
    ((Rating.new.setValue 7).setMaxRating 10).value = 5 ∧
    ((Rating.new.setMaxRating 10).setValue 7).value = 7 ∧
    ((Rating.new.setValue 7).setMaxRating 10).value ≠
      ((Rating.new.setMaxRating 10).setValue 7).value := by
  decide

end GpuiComponent
